import Mathlib

/-!
Verification of the binding layer of rust-GSL (vectors, matrices,
eigen-symmetric workspaces).

The Rust wrapper types hold one owning raw pointer each into the native
heap.  We model that native heap explicitly: pointers are natural numbers
(0 is the NULL pointer), the heap maps pointers to allocated blocks, and
every native call is a Lean function on the heap.  The element type of the
dense containers is a parameter `α` standing for the scalar type (`f64`,
`f32`, complex variants): the wrapper code is textually identical for all
precision variants and never computes on the elements, it only stores and
retrieves them.

Allocation can fail in the native library (out of memory); the allocator
models this with an explicit `ok : Bool` oracle: `ok = false` makes the
native allocator return NULL.  The heap also records a log of the native
allocation / free calls, so that claims about *which* native calls a
wrapper performs ("frees exactly once", "passes the size through to the
allocator") are statable.
-/

namespace Gsl

/-- Native pointers; `0` is the NULL pointer. -/
abbrev Ptr := Nat

/-- A block allocated on the native heap: a vector of scalars, a matrix of
scalars (row list of row-major rows, with its `size1`/`size2` dimension
fields), or an eigen workspace of recorded problem size. -/
inductive Blk (α : Type) where
  | vec (data : List α)
  | mat (n1 n2 : Nat) (rows : List (List α))
  | ws (n : Nat)
deriving DecidableEq

/-- Events of the native-call log: each allocator or free call of the
native library, with its arguments. -/
inductive Event where
  | vCalloc (n : Nat)
  | vAlloc (n : Nat)
  | vFree (p : Ptr)
  | mCalloc (n1 n2 : Nat)
  | mFree (p : Ptr)
  | wsAlloc (n : Nat)
  | wsFree (p : Ptr)
deriving DecidableEq

/-- Association-list lookup on the heap's block list. -/
def assocFind {β : Type} (l : List (Ptr × β)) (p : Ptr) : Option β :=
  match l with
  | [] => none
  | kv :: t => if kv.1 = p then some kv.2 else assocFind t p

/-- Replace the block stored at pointer `p` (other pointers untouched). -/
def assocUpdate {β : Type} (l : List (Ptr × β)) (p : Ptr) (b : β) :
    List (Ptr × β) :=
  match l with
  | [] => []
  | kv :: t =>
      (if kv.1 = p then (p, b) else kv) :: assocUpdate t p b

/-- Remove the block stored at pointer `p`. -/
def assocErase {β : Type} (l : List (Ptr × β)) (p : Ptr) : List (Ptr × β) :=
  match l with
  | [] => []
  | kv :: t => if kv.1 = p then assocErase t p else kv :: assocErase t p

/-- The native heap: the next fresh pointer, the allocated blocks and the
log of native allocator / free calls. -/
structure Heap (α : Type) where
  next : Nat
  blocks : List (Ptr × Blk α)
  log : List Event
deriving DecidableEq

/-- The empty native heap (no allocations yet). -/
def Heap.empty {α : Type} : Heap α := ⟨1, [], []⟩

/-- Look a pointer up in the heap. -/
def Heap.find {α : Type} (h : Heap α) (p : Ptr) : Option (Blk α) :=
  assocFind h.blocks p

/-- Overwrite the block at pointer `p`. -/
def Heap.update {α : Type} (h : Heap α) (p : Ptr) (b : Blk α) : Heap α :=
  { h with blocks := assocUpdate h.blocks p b }

/-- Append one event to the native-call log. -/
def Heap.logEv {α : Type} (h : Heap α) (e : Event) : Heap α :=
  { h with log := h.log ++ [e] }

/-- Allocate a fresh block, returning its (non-NULL) pointer. -/
def Heap.alloc {α : Type} (h : Heap α) (b : Blk α) : Ptr × Heap α :=
  (h.next, { h with next := h.next + 1, blocks := (h.next, b) :: h.blocks })

/-- Release the block at pointer `p`. -/
def Heap.free {α : Type} (h : Heap α) (p : Ptr) : Heap α :=
  { h with blocks := assocErase h.blocks p }

/-- Heap well-formedness: fresh pointers are positive and strictly larger
than every allocated pointer, so allocation never reuses a live pointer
and never returns NULL. -/
def Heap.WF {α : Type} (h : Heap α) : Prop :=
  1 ≤ h.next ∧ ∀ kv ∈ h.blocks, kv.1 ≠ 0 ∧ kv.1 < h.next

instance {α : Type} (h : Heap α) : Decidable h.WF := by
  unfold Heap.WF; infer_instance

/-! ### Native status codes (gsl_errno.h) -/

def GSL_SUCCESS : Int := 0
def GSL_FAILURE : Int := -1
def GSL_EDOM : Int := 1
def GSL_ERANGE : Int := 2
def GSL_EINVAL : Int := 4
def GSL_ENOMEM : Int := 8
def GSL_EMAXITER : Int := 11
def GSL_EUNDRFLW : Int := 15
def GSL_EOVRFLW : Int := 16
def GSL_EBADLEN : Int := 19

/-! ### Native vector functions

Modelled from the spec: the native GSL functions `gsl_vector_calloc`,
`gsl_vector_alloc`, `gsl_vector_free`, `gsl_vector_get`, `gsl_vector_set`,
`gsl_vector_memcpy` and `gsl_vector_isnull` are not part of this
repository (they are the external native library); their behaviour is
modelled from the repository's doc comments: `calloc` creates a vector
with all elements set to zero, `get`/`set` are bounds-checked and on an
out-of-range index invoke the error handler (`get` then returns 0),
`memcpy` requires equal lengths, `isnull` tests that all elements are 0.
A zero requested length is rejected by the native allocator (it reports
an invalid argument and returns NULL under a non-aborting error handler,
per spec, section 5). -/

/-- Native `gsl_vector_calloc`: size passed through unvalidated by the
wrapper; fails (NULL) on `n = 0` or when the allocator is out of memory
(`ok = false`); otherwise allocates a zero-filled vector. -/
def gsl_vector_calloc {α : Type} [Zero α] (ok : Bool) (n : Nat)
    (h : Heap α) : Ptr × Heap α :=
  let h := h.logEv (.vCalloc n)
  if n = 0 ∨ ok = false then (0, h)
  else h.alloc (.vec (List.replicate n 0))

/-- Native `gsl_vector_alloc`: like `calloc` but the element storage is
uninitialized, modelled by an arbitrary `junk` fill value. -/
def gsl_vector_alloc {α : Type} (ok : Bool) (junk : α) (n : Nat)
    (h : Heap α) : Ptr × Heap α :=
  let h := h.logEv (.vAlloc n)
  if n = 0 ∨ ok = false then (0, h)
  else h.alloc (.vec (List.replicate n junk))

/-- Native `gsl_vector_free`. -/
def gsl_vector_free {α : Type} (h : Heap α) (p : Ptr) : Heap α :=
  (h.logEv (.vFree p)).free p

/-- Native `gsl_vector_get`: bounds-checked element read; out of range (or
an invalid pointer) invokes the error handler and returns 0. -/
def gsl_vector_get {α : Type} [Zero α] (h : Heap α) (p : Ptr) (i : Nat) :
    α :=
  match h.find p with
  | some (.vec d) => if i < d.length then d.getD i 0 else 0
  | _ => 0

/-- Native `gsl_vector_set`: bounds-checked element write; out of range
invokes the error handler and writes nothing. -/
def gsl_vector_set {α : Type} (h : Heap α) (p : Ptr) (i : Nat) (x : α) :
    Heap α :=
  match h.find p with
  | some (.vec d) =>
      if i < d.length then h.update p (.vec (d.set i x)) else h
  | _ => h

/-- Native `gsl_vector_memcpy dst src`: requires equal lengths, copies all
elements of `src` into `dst`. -/
def gsl_vector_memcpy {α : Type} (h : Heap α) (dst src : Ptr) :
    Int × Heap α :=
  match h.find dst, h.find src with
  | some (.vec dd), some (.vec sd) =>
      if dd.length = sd.length then (GSL_SUCCESS, h.update dst (.vec sd))
      else (GSL_EBADLEN, h)
  | _, _ => (GSL_FAILURE, h)

/-- Native `gsl_vector_isnull`: 1 when every element is zero, else 0. -/
def gsl_vector_isnull {α : Type} [Zero α] [DecidableEq α] (h : Heap α)
    (p : Ptr) : Int :=
  match h.find p with
  | some (.vec d) => if d.all (fun x => decide (x = 0)) then 1 else 0
  | _ => 0

/-! ### The `VectorF64` wrapper (src/types.rs)

Translated from the source.  The struct holds the one owning raw pointer
`vec`.  Operations that the Rust code runs on `&self` take the heap as an
explicit extra argument and return the new heap. -/

/-- `pub struct VectorF64 { vec: *mut ffi::gsl_vector }` -/
structure VectorF64 where
  vec : Ptr
deriving DecidableEq

namespace VectorF64

/-- `VectorF64::new(size)`: calls `gsl_vector_calloc(size)`; NULL maps to
`None`, otherwise the returned pointer is owned by the new handle. -/
def new {α : Type} [Zero α] (ok : Bool) (size : Nat) (h : Heap α) :
    Option VectorF64 × Heap α :=
  let (tmp, h) := gsl_vector_calloc ok size h
  if tmp = 0 then (none, h) else (some ⟨tmp⟩, h)

/-- `VectorF64::len`: 0 for a NULL handle, else the native size field. -/
def len {α : Type} (v : VectorF64) (h : Heap α) : Nat :=
  if v.vec = 0 then 0
  else
    match h.find v.vec with
    | some (.vec d) => d.length
    | _ => 0

/-- `VectorF64::get(i)`: delegates to the native bounds-checked read. -/
def get {α : Type} [Zero α] (v : VectorF64) (i : Nat) (h : Heap α) : α :=
  gsl_vector_get h v.vec i

/-- `VectorF64::set(i, x)`: delegates to the native bounds-checked write. -/
def set {α : Type} (v : VectorF64) (i : Nat) (x : α) (h : Heap α) :
    Heap α :=
  gsl_vector_set h v.vec i x

/-- `VectorF64::copy_from(other)`: `gsl_vector_memcpy(self.vec, other.vec)`,
returning the raw `i32` status. -/
def copy_from {α : Type} (v other : VectorF64) (h : Heap α) :
    Int × Heap α :=
  gsl_vector_memcpy h v.vec other.vec

/-- `VectorF64::is_null()`: native `isnull` result 1 mapped to `true`. -/
def is_null {α : Type} [Zero α] [DecidableEq α] (v : VectorF64)
    (h : Heap α) : Bool :=
  match gsl_vector_isnull h v.vec with
  | 1 => true
  | _ => false

/-- `VectorF64::clone()`: NULL handle gives `None`; otherwise allocate a
new vector of the same size with `VectorF64::new` and `copy_from` the
source (the copy status is discarded by the source code). -/
def clone {α : Type} [Zero α] (ok : Bool) (v : VectorF64) (h : Heap α) :
    Option VectorF64 × Heap α :=
  if v.vec = 0 then (none, h)
  else
    let sz :=
      match h.find v.vec with
      | some (.vec d) => d.length
      | _ => 0
    match new ok sz h with
    | (some w, h) =>
        let (_, h) := copy_from w v h
        (some w, h)
    | (none, h) => (none, h)

/-- `impl Drop for VectorF64`: `gsl_vector_free(self.vec)` then
`self.vec = null`. -/
def drop {α : Type} (v : VectorF64) (h : Heap α) : VectorF64 × Heap α :=
  let h := gsl_vector_free h v.vec
  (⟨0⟩, h)

end VectorF64

/-! ### Native matrix functions

Modelled from the spec: the native `gsl_matrix_calloc`, `gsl_matrix_free`,
`gsl_matrix_get`, `gsl_matrix_set`, `gsl_matrix_memcpy`,
`gsl_matrix_get_row`, `gsl_matrix_get_col` and `gsl_matrix_isnull` are the
external native library, modelled from the repository's doc comments:
`calloc` creates an `n1 × n2` matrix with all elements zero (NULL when a
dimension is zero or on out-of-memory), `get`/`set` are bounds-checked,
`memcpy` requires equal dimensions, `get_row`/`get_col` copy one row or
column into a caller-supplied vector whose length must equal the row or
column length. -/

/-- Native `gsl_matrix_calloc`. -/
def gsl_matrix_calloc {α : Type} [Zero α] (ok : Bool) (n1 n2 : Nat)
    (h : Heap α) : Ptr × Heap α :=
  let h := h.logEv (.mCalloc n1 n2)
  if n1 = 0 ∨ n2 = 0 ∨ ok = false then (0, h)
  else h.alloc (.mat n1 n2 (List.replicate n1 (List.replicate n2 0)))

/-- Native `gsl_matrix_free`. -/
def gsl_matrix_free {α : Type} (h : Heap α) (p : Ptr) : Heap α :=
  (h.logEv (.mFree p)).free p

/-- Native `gsl_matrix_get`: bounds-checked element read; out of range (or
an invalid pointer) invokes the error handler and returns 0. -/
def gsl_matrix_get {α : Type} [Zero α] (h : Heap α) (p : Ptr) (y x : Nat) :
    α :=
  match h.find p with
  | some (.mat n1 n2 rows) =>
      if y < n1 ∧ x < n2 then (rows.getD y []).getD x 0 else 0
  | _ => 0

/-- Native `gsl_matrix_set`: bounds-checked element write; out of range
invokes the error handler and writes nothing. -/
def gsl_matrix_set {α : Type} (h : Heap α) (p : Ptr) (y x : Nat) (v : α) :
    Heap α :=
  match h.find p with
  | some (.mat n1 n2 rows) =>
      if y < n1 ∧ x < n2 then
        h.update p (.mat n1 n2 (rows.set y ((rows.getD y []).set x v)))
      else h
  | _ => h

/-- Native `gsl_matrix_memcpy dst src`: requires equal dimensions, copies
all elements of `src` into `dst`. -/
def gsl_matrix_memcpy {α : Type} (h : Heap α) (dst src : Ptr) :
    Int × Heap α :=
  match h.find dst, h.find src with
  | some (.mat d1 d2 _), some (.mat s1 s2 srows) =>
      if d1 = s1 ∧ d2 = s2 then
        (GSL_SUCCESS, h.update dst (.mat d1 d2 srows))
      else (GSL_EBADLEN, h)
  | _, _ => (GSL_FAILURE, h)

/-- Native `gsl_matrix_get_row v m y`: row index must be in range, the
vector length must equal the column count; then the `y`-th row is copied
into the vector. -/
def gsl_matrix_get_row {α : Type} (h : Heap α) (vp mp : Ptr) (y : Nat) :
    Int × Heap α :=
  match h.find mp, h.find vp with
  | some (.mat n1 n2 rows), some (.vec d) =>
      if y < n1 then
        if d.length = n2 then (GSL_SUCCESS, h.update vp (.vec (rows.getD y [])))
        else (GSL_EBADLEN, h)
      else (GSL_EINVAL, h)
  | _, _ => (GSL_FAILURE, h)

/-- Native `gsl_matrix_get_col v m x`: column index must be in range, the
vector length must equal the row count; then the `x`-th column is copied
into the vector. -/
def gsl_matrix_get_col {α : Type} [Zero α] (h : Heap α) (vp mp : Ptr)
    (x : Nat) : Int × Heap α :=
  match h.find mp, h.find vp with
  | some (.mat n1 n2 rows), some (.vec d) =>
      if x < n2 then
        if d.length = n1 then
          (GSL_SUCCESS, h.update vp (.vec (rows.map (fun r => r.getD x 0))))
        else (GSL_EBADLEN, h)
      else (GSL_EINVAL, h)
  | _, _ => (GSL_FAILURE, h)

/-- Native `gsl_matrix_isnull`: 1 when every element is zero, else 0. -/
def gsl_matrix_isnull {α : Type} [Zero α] [DecidableEq α] (h : Heap α)
    (p : Ptr) : Int :=
  match h.find p with
  | some (.mat _ _ rows) =>
      if rows.all (fun r => r.all (fun v => decide (v = 0))) then 1 else 0
  | _ => 0

/-! ### The `MatrixF64` wrapper (src/types.rs) -/

/-- `pub struct MatrixF64 { mat: *mut ffi::gsl_matrix }` -/
structure MatrixF64 where
  mat : Ptr
deriving DecidableEq

namespace MatrixF64

/-- `MatrixF64::new(n1, n2)`: calls `gsl_matrix_calloc(n1, n2)`; NULL maps
to `None`, otherwise the returned pointer is owned by the new handle. -/
def new {α : Type} [Zero α] (ok : Bool) (n1 n2 : Nat) (h : Heap α) :
    Option MatrixF64 × Heap α :=
  let (tmp, h) := gsl_matrix_calloc ok n1 n2 h
  if tmp = 0 then (none, h) else (some ⟨tmp⟩, h)

/-- `MatrixF64::get(y, x)`: delegates to the native bounds-checked read. -/
def get {α : Type} [Zero α] (m : MatrixF64) (y x : Nat) (h : Heap α) : α :=
  gsl_matrix_get h m.mat y x

/-- `MatrixF64::set(y, x, value)`: delegates to the native write. -/
def set {α : Type} (m : MatrixF64) (y x : Nat) (v : α) (h : Heap α) :
    Heap α :=
  gsl_matrix_set h m.mat y x v

/-- `MatrixF64::copy_from(other)`: `gsl_matrix_memcpy(self.mat, other.mat)`,
returning the raw `i32` status. -/
def copy_from {α : Type} (m other : MatrixF64) (h : Heap α) :
    Int × Heap α :=
  gsl_matrix_memcpy h m.mat other.mat

/-- `MatrixF64::is_null()`: native `isnull` result 1 mapped to `true`. -/
def is_null {α : Type} [Zero α] [DecidableEq α] (m : MatrixF64)
    (h : Heap α) : Bool :=
  match gsl_matrix_isnull h m.mat with
  | 1 => true
  | _ => false

/-- The matrix dimension fields `(*self.mat).size1` / `(*self.mat).size2`
as read by the source (`0` when unallocated). -/
def size1 {α : Type} (m : MatrixF64) (h : Heap α) : Nat :=
  match h.find m.mat with
  | some (.mat n1 _ _) => n1
  | _ => 0

def size2 {α : Type} (m : MatrixF64) (h : Heap α) : Nat :=
  match h.find m.mat with
  | some (.mat _ n2 _) => n2
  | _ => 0

/-- `MatrixF64::get_row(y)`: allocates a vector of length `size2` with
`gsl_vector_alloc` (NULL maps to `None`), then copies the row into it with
`gsl_matrix_get_row`, returning the vector together with the raw status. -/
def get_row {α : Type} (ok : Bool) (junk : α) (m : MatrixF64) (y : Nat)
    (h : Heap α) : Option (VectorF64 × Int) × Heap α :=
  let (tmp, h) := gsl_vector_alloc ok junk (size2 m h) h
  if tmp = 0 then (none, h)
  else
    let (ret, h) := gsl_matrix_get_row h tmp m.mat y
    (some (⟨tmp⟩, ret), h)

/-- `MatrixF64::get_col(x)`: allocates a vector of length `size1` with
`gsl_vector_alloc` (NULL maps to `None`), then copies the column into it
with `gsl_matrix_get_col`, returning the vector with the raw status. -/
def get_col {α : Type} [Zero α] (ok : Bool) (junk : α) (m : MatrixF64)
    (x : Nat) (h : Heap α) : Option (VectorF64 × Int) × Heap α :=
  let (tmp, h) := gsl_vector_alloc ok junk (size1 m h) h
  if tmp = 0 then (none, h)
  else
    let (ret, h) := gsl_matrix_get_col h tmp m.mat x
    (some (⟨tmp⟩, ret), h)

/-- `MatrixF64::clone()`: NULL handle gives `None`; otherwise allocate a
new `size1 × size2` matrix with `MatrixF64::new` and `copy_from` the
source (the copy status is discarded by the source code). -/
def clone {α : Type} [Zero α] (ok : Bool) (m : MatrixF64) (h : Heap α) :
    Option MatrixF64 × Heap α :=
  if m.mat = 0 then (none, h)
  else
    match new ok (size1 m h) (size2 m h) h with
    | (some w, h) =>
        let (_, h) := copy_from w m h
        (some w, h)
    | (none, h) => (none, h)

/-- `impl Drop for MatrixF64`: `gsl_matrix_free(self.mat)` then
`self.mat = null`. -/
def drop {α : Type} (m : MatrixF64) (h : Heap α) : MatrixF64 × Heap α :=
  let h := gsl_matrix_free h m.mat
  (⟨0⟩, h)

end MatrixF64

/-! ### The eigen-symmetric workspace
(src/types/eigen_symmetric_workspace.rs)

The handle struct and its `Drop` come from the `ffi_wrapper!` macro whose
definition (src/macros.rs) is not in the snapshot; modelled from the spec:
the wrapper holds the one owning pointer, and destruction calls the
matching native free exactly once and clears the pointer (spec, section
4.1). -/

/-- Native `gsl_eigen_symm_alloc`: workspace for `n × n` problems; NULL on
`n = 0` or out of memory. -/
def gsl_eigen_symm_alloc {α : Type} (ok : Bool) (n : Nat) (h : Heap α) :
    Ptr × Heap α :=
  let h := h.logEv (.wsAlloc n)
  if n = 0 ∨ ok = false then (0, h)
  else h.alloc (.ws n)

/-- Native `gsl_eigen_symm_free`. -/
def gsl_eigen_symm_free {α : Type} (h : Heap α) (p : Ptr) : Heap α :=
  (h.logEv (.wsFree p)).free p

/-- `EigenSymmetricWorkspace` handle (via `ffi_wrapper!`). -/
structure EigenSymmetricWorkspace where
  ptr : Ptr
deriving DecidableEq

namespace EigenSymmetricWorkspace

/-- `EigenSymmetricWorkspace::new(n)`: `gsl_eigen_symm_alloc(n)`; NULL maps
to `None`, otherwise the returned pointer is owned by the new handle. -/
def new {α : Type} (ok : Bool) (n : Nat) (h : Heap α) :
    Option EigenSymmetricWorkspace × Heap α :=
  let (tmp, h) := gsl_eigen_symm_alloc ok n h
  if tmp = 0 then (none, h) else (some ⟨tmp⟩, h)

/-- Destruction of the workspace handle (`ffi_wrapper!`-generated `Drop`,
modelled from the spec: free once, then clear the pointer). -/
def drop {α : Type} (w : EigenSymmetricWorkspace) (h : Heap α) :
    EigenSymmetricWorkspace × Heap α :=
  let h := gsl_eigen_symm_free h w.ptr
  (⟨0⟩, h)

end EigenSymmetricWorkspace

/-! ### The typed status enumeration

Modelled from the spec: the `Value` enumeration (src/enums.rs is not in
the snapshot) covers the documented native status codes — success, domain
error, range error, invalid argument, out of memory, iteration limit
exceeded, overflow, underflow — with a generic failure catch-all for any
other integer (spec, sections 4.2 and 7). -/

inductive Value where
  | Success
  | DomainError
  | RangeError
  | InvalidArgument
  | OutOfMemory
  | NoConvergence
  | Overflow
  | Underflow
  | Failure
deriving DecidableEq

/-- `Value::from(code)`: total status-to-error mapping. -/
def Value.fromRaw (code : Int) : Value :=
  if code = GSL_SUCCESS then .Success
  else if code = GSL_EDOM then .DomainError
  else if code = GSL_ERANGE then .RangeError
  else if code = GSL_EINVAL then .InvalidArgument
  else if code = GSL_ENOMEM then .OutOfMemory
  else if code = GSL_EMAXITER then .NoConvergence
  else if code = GSL_EOVRFLW then .Overflow
  else if code = GSL_EUNDRFLW then .Underflow
  else .Failure

/-! ### Return kinds of the fallible wrapped operations

A signature-level embedding of the fallible operations named in the spec:
for each one, what its Rust declaration returns to the caller.  Each arm
below is read off one `pub fn` signature of the source:
`rawStatus` for a plain `-> i32` and `typedValue` for `-> Value`. -/

inductive RetKind where
  | rawStatus
  | typedValue
deriving DecidableEq

/-- The fallible wrapped operations cited by the spec's status-mapping
contract: the `VectorF64` and `MatrixF64` bulk operations of
src/types.rs and the eigen-workspace invocations of
src/types/eigen_symmetric_workspace.rs. -/
inductive WrappedOp where
  | vector_copy_from
  | vector_copy_to
  | vector_swap
  | vector_reverse
  | vector_add
  | vector_sub
  | vector_mul
  | vector_div
  | vector_scale
  | vector_add_constant
  | matrix_copy_from
  | matrix_copy_to
  | matrix_swap
  | matrix_add
  | matrix_sub
  | matrix_mul_elements
  | matrix_div_elements
  | matrix_scale
  | matrix_add_constant
  | eigen_symm
  | eigen_symmv
  | eigen_herm
  | eigen_hermv
  | eigen_nonsymm
  | eigen_nonsymmv
  | eigen_gensymm
  | eigen_gensymmv
  | eigen_genherm
  | eigen_genhermv
  | eigen_gen
  | eigen_genv
deriving DecidableEq

/-- Return kind of each operation, read off its source signature:
`VectorF64`/`MatrixF64` operations are declared `-> i32` (raw status,
src/types.rs); the eigen-workspace invocations are declared `-> Value`
(typed, via `Value::from`, src/types/eigen_symmetric_workspace.rs). -/
def retKind : WrappedOp → RetKind
  | .vector_copy_from => .rawStatus
  | .vector_copy_to => .rawStatus
  | .vector_swap => .rawStatus
  | .vector_reverse => .rawStatus
  | .vector_add => .rawStatus
  | .vector_sub => .rawStatus
  | .vector_mul => .rawStatus
  | .vector_div => .rawStatus
  | .vector_scale => .rawStatus
  | .vector_add_constant => .rawStatus
  | .matrix_copy_from => .rawStatus
  | .matrix_copy_to => .rawStatus
  | .matrix_swap => .rawStatus
  | .matrix_add => .rawStatus
  | .matrix_sub => .rawStatus
  | .matrix_mul_elements => .rawStatus
  | .matrix_div_elements => .rawStatus
  | .matrix_scale => .rawStatus
  | .matrix_add_constant => .rawStatus
  | .eigen_symm => .typedValue
  | .eigen_symmv => .typedValue
  | .eigen_herm => .typedValue
  | .eigen_hermv => .typedValue
  | .eigen_nonsymm => .typedValue
  | .eigen_nonsymmv => .typedValue
  | .eigen_gensymm => .typedValue
  | .eigen_gensymmv => .typedValue
  | .eigen_genherm => .typedValue
  | .eigen_genhermv => .typedValue
  | .eigen_gen => .typedValue
  | .eigen_genv => .typedValue

/-- Whether an operation belongs to the eigen-workspace family. -/
def WrappedOp.isEigen : WrappedOp → Bool
  | .eigen_symm | .eigen_symmv | .eigen_herm | .eigen_hermv
  | .eigen_nonsymm | .eigen_nonsymmv | .eigen_gensymm | .eigen_gensymmv
  | .eigen_genherm | .eigen_genhermv | .eigen_gen | .eigen_genv => true
  | _ => false

/-! ### The symmetric 2×2 eigenvalue contract

Modelled from the spec: the native `gsl_eigen_symm` (external library) is
documented in the source as computing the eigenvalues, unordered, of the
real symmetric matrix determined by the diagonal and lower triangular part
of `A` (the strict upper triangular part is not referenced).  For the
2 × 2 symmetric matrix `[[a, b], [b, d]]` — `a`, `b`, `d` being the
referenced entries `A[0][0]`, `A[1][0]`, `A[1][1]` — a pair `l1`, `l2` is
the (unordered) pair of eigenvalues exactly when its sum is the trace and
its product the determinant (Vieta on the characteristic polynomial). -/

def SymmEigenvalues2 (a b d l1 l2 : ℝ) : Prop :=
  l1 + l2 = a + d ∧ l1 * l2 = a * d - b * b

/-- `x` printed with 4 decimal places reads as the decimal `n / 10000`
(n in ten-thousandths, rounding to nearest). -/
def Formats4dp (x : ℝ) (n : ℤ) : Prop :=
  |x * 10000 - (n : ℝ)| < 1 / 2

/-! ### The eigen-symmetric concrete test scenario

The embedded run of the repository's `eigen_symmetric_workspace` test:
allocate a workspace for n = 2, allocate a 2 × 2 matrix, store the entries
`[5, 5], [1, 6]`, allocate the 2-element output vector.  Scalar type ℚ
(the stored values are small integers, stored and retrieved exactly). -/

def testH1 : Heap ℚ := (EigenSymmetricWorkspace.new true 2 Heap.empty).2

def testWs : EigenSymmetricWorkspace :=
  (EigenSymmetricWorkspace.new (α := ℚ) true 2 Heap.empty).1.getD ⟨0⟩

def testH2 : Heap ℚ := (MatrixF64.new true 2 2 testH1).2

def testM : MatrixF64 := (MatrixF64.new (α := ℚ) true 2 2 testH1).1.getD ⟨0⟩

def testH3 : Heap ℚ := testM.set 0 0 5 testH2

def testH4 : Heap ℚ := testM.set 0 1 5 testH3

def testH5 : Heap ℚ := testM.set 1 0 1 testH4

def testH6 : Heap ℚ := testM.set 1 1 6 testH5

def testH7 : Heap ℚ := (VectorF64.new true 2 testH6).2

def testV : VectorF64 := (VectorF64.new (α := ℚ) true 2 testH6).1.getD ⟨0⟩

/-! ### Sample heaps used to instantiate the general theorems -/

/-- A small concrete heap over ℤ: one 2-element vector at pointer 1 and
one 2 × 2 matrix at pointer 2. -/
def sampleHeap : Heap Int :=
  ⟨3, [(1, .vec [3, 4]), (2, .mat 2 2 [[1, 2], [3, 4]])], []⟩

/-- The vector handle of `sampleHeap`. -/
def sampleVec : VectorF64 := ⟨1⟩

/-- The matrix handle of `sampleHeap`. -/
def sampleMat : MatrixF64 := ⟨2⟩

/-! ## Helper lemmas on the heap model -/

theorem assocFind_update_self {β : Type} (l : List (Ptr × β)) (p : Ptr)
    (b : β) :
    assocFind (assocUpdate l p b) p = (assocFind l p).map (fun _ => b) := by
  induction l with
  | nil => rfl
  | cons kv t ih =>
      by_cases hk : kv.1 = p
      · simp [assocUpdate, assocFind, hk]
      · simp [assocUpdate, assocFind, hk, ih]

theorem assocFind_update_ne {β : Type} (l : List (Ptr × β)) (p q : Ptr)
    (b : β) (hq : q ≠ p) :
    assocFind (assocUpdate l p b) q = assocFind l q := by
  induction l with
  | nil => rfl
  | cons kv t ih =>
      have hpq : p ≠ q := fun hpq => hq hpq.symm
      by_cases hk : kv.1 = p
      · simp [assocUpdate, assocFind, hk, hpq, hq, ih]
      · by_cases hkq : kv.1 = q
        · simp [assocUpdate, assocFind, hk, hkq, hq]
        · simp [assocUpdate, assocFind, hk, hkq, hq, ih]

theorem assocFind_mem {β : Type} {l : List (Ptr × β)} {p : Ptr} {b : β}
    (hf : assocFind l p = some b) : (p, b) ∈ l := by
  induction l with
  | nil => simp [assocFind] at hf
  | cons kv t ih =>
      by_cases hk : kv.1 = p
      · simp only [assocFind, hk, if_true] at hf
        obtain ⟨k1, k2⟩ := kv
        simp_all
      · simp only [assocFind, hk, if_false] at hf
        exact List.mem_cons_of_mem _ (ih hf)

theorem getD_set_self {γ : Type} (l : List γ) (i : Nat) (x dflt : γ)
    (hi : i < l.length) : (l.set i x).getD i dflt = x := by
  induction l generalizing i with
  | nil => simp at hi
  | cons a t ih =>
      cases i with
      | zero => rfl
      | succ n => simpa using ih n (by simpa using hi)

theorem getD_mem {γ : Type} (l : List γ) (i : Nat) (dflt : γ)
    (hi : i < l.length) : l.getD i dflt ∈ l := by
  induction l generalizing i with
  | nil => simp at hi
  | cons a t ih =>
      cases i with
      | zero => simp
      | succ n =>
          simp only [List.getD_cons_succ]
          exact List.mem_cons_of_mem _ (ih n (by simpa using hi))

theorem Heap.find_update_self {α : Type} (h : Heap α) (p : Ptr)
    (b : Blk α) :
    (h.update p b).find p = (h.find p).map (fun _ => b) :=
  assocFind_update_self h.blocks p b

theorem Heap.find_update_ne {α : Type} (h : Heap α) (p q : Ptr)
    (b : Blk α) (hq : q ≠ p) : (h.update p b).find q = h.find q :=
  assocFind_update_ne h.blocks p q b hq

theorem Heap.find_mem {α : Type} {h : Heap α} {p : Ptr} {b : Blk α}
    (hf : h.find p = some b) : (p, b) ∈ h.blocks :=
  assocFind_mem hf

theorem Heap.WF.find_bounds {α : Type} {h : Heap α} (hw : h.WF) {p : Ptr}
    {b : Blk α} (hf : h.find p = some b) : p ≠ 0 ∧ p < h.next :=
  hw.2 (p, b) (Heap.find_mem hf)

/-! ## Constructor shape lemmas -/

theorem vector_new_fst {α : Type} [Zero α] (ok : Bool) (n : Nat)
    (h : Heap α) :
    (VectorF64.new ok n h).1 =
      (if (gsl_vector_calloc ok n h).1 = 0 then none
       else some ⟨(gsl_vector_calloc ok n h).1⟩) := by
  unfold VectorF64.new
  rcases hc : gsl_vector_calloc ok n h with ⟨tmp, h2⟩
  by_cases h0 : tmp = 0 <;> simp [h0]

theorem vector_new_snd {α : Type} [Zero α] (ok : Bool) (n : Nat)
    (h : Heap α) :
    (VectorF64.new ok n h).2 = (gsl_vector_calloc ok n h).2 := by
  unfold VectorF64.new
  rcases hc : gsl_vector_calloc ok n h with ⟨tmp, h2⟩
  by_cases h0 : tmp = 0 <;> simp [h0]

theorem matrix_new_fst {α : Type} [Zero α] (ok : Bool) (n1 n2 : Nat)
    (h : Heap α) :
    (MatrixF64.new ok n1 n2 h).1 =
      (if (gsl_matrix_calloc ok n1 n2 h).1 = 0 then none
       else some ⟨(gsl_matrix_calloc ok n1 n2 h).1⟩) := by
  unfold MatrixF64.new
  rcases hc : gsl_matrix_calloc ok n1 n2 h with ⟨tmp, h2⟩
  by_cases h0 : tmp = 0 <;> simp [h0]

theorem matrix_new_snd {α : Type} [Zero α] (ok : Bool) (n1 n2 : Nat)
    (h : Heap α) :
    (MatrixF64.new ok n1 n2 h).2 = (gsl_matrix_calloc ok n1 n2 h).2 := by
  unfold MatrixF64.new
  rcases hc : gsl_matrix_calloc ok n1 n2 h with ⟨tmp, h2⟩
  by_cases h0 : tmp = 0 <;> simp [h0]

theorem ws_new_fst {α : Type} (ok : Bool) (k : Nat) (h : Heap α) :
    (EigenSymmetricWorkspace.new (α := α) ok k h).1 =
      (if (gsl_eigen_symm_alloc (α := α) ok k h).1 = 0 then none
       else some ⟨(gsl_eigen_symm_alloc (α := α) ok k h).1⟩) := by
  unfold EigenSymmetricWorkspace.new
  rcases hc : gsl_eigen_symm_alloc (α := α) ok k h with ⟨tmp, h2⟩
  by_cases h0 : tmp = 0 <;> simp [h0]

theorem vector_calloc_zero_or_fail {α : Type} [Zero α] (ok : Bool)
    (n : Nat) (h : Heap α) (hfail : n = 0 ∨ ok = false) :
    gsl_vector_calloc ok n h = (0, h.logEv (.vCalloc n)) := by
  unfold gsl_vector_calloc
  simp [hfail]

theorem vector_calloc_pos {α : Type} [Zero α] (n : Nat) (h : Heap α)
    (hn : n ≠ 0) :
    gsl_vector_calloc true n h =
      (h.next,
       ⟨h.next + 1, (h.next, .vec (List.replicate n 0)) :: h.blocks,
        h.log ++ [.vCalloc n]⟩) := by
  unfold gsl_vector_calloc
  simp [hn, Heap.logEv, Heap.alloc]

theorem vector_alloc_zero_or_fail {α : Type} (ok : Bool) (junk : α)
    (n : Nat) (h : Heap α) (hfail : n = 0 ∨ ok = false) :
    gsl_vector_alloc ok junk n h = (0, h.logEv (.vAlloc n)) := by
  unfold gsl_vector_alloc
  simp [hfail]

theorem vector_alloc_pos {α : Type} (junk : α) (n : Nat) (h : Heap α)
    (hn : n ≠ 0) :
    gsl_vector_alloc true junk n h =
      (h.next,
       ⟨h.next + 1, (h.next, .vec (List.replicate n junk)) :: h.blocks,
        h.log ++ [.vAlloc n]⟩) := by
  unfold gsl_vector_alloc
  simp [hn, Heap.logEv, Heap.alloc]

theorem matrix_calloc_zero_or_fail {α : Type} [Zero α] (ok : Bool)
    (n1 n2 : Nat) (h : Heap α) (hfail : n1 = 0 ∨ n2 = 0 ∨ ok = false) :
    gsl_matrix_calloc ok n1 n2 h = (0, h.logEv (.mCalloc n1 n2)) := by
  unfold gsl_matrix_calloc
  simp [hfail]

theorem matrix_calloc_pos {α : Type} [Zero α] (n1 n2 : Nat) (h : Heap α)
    (h1 : n1 ≠ 0) (h2 : n2 ≠ 0) :
    gsl_matrix_calloc true n1 n2 h =
      (h.next,
       ⟨h.next + 1,
        (h.next, .mat n1 n2 (List.replicate n1 (List.replicate n2 0)))
          :: h.blocks,
        h.log ++ [.mCalloc n1 n2]⟩) := by
  unfold gsl_matrix_calloc
  simp [h1, h2, Heap.logEv, Heap.alloc]

theorem ws_alloc_log {α : Type} (ok : Bool) (k : Nat) (h : Heap α) :
    ((gsl_eigen_symm_alloc (α := α) ok k h).2).log =
      h.log ++ [Event.wsAlloc k] := by
  unfold gsl_eigen_symm_alloc
  split <;> simp [Heap.logEv, Heap.alloc]

/-! ## Claim C1 -/

/-- C1: each allocation constructor — `VectorF64::new`,
`MatrixF64::new`, `EigenSymmetricWorkspace::new` — returns `None` exactly
when the native allocator returned the NULL pointer, and otherwise `Some`
of a handle owning exactly the pointer the allocator returned. -/
theorem alloc_constructor_null_to_none :
    ∀ (α : Type) [Zero α] (ok : Bool) (n n1 n2 k : Nat) (h : Heap α),
      (VectorF64.new ok n h).1 =
        (if (gsl_vector_calloc ok n h).1 = 0 then none
         else some ⟨(gsl_vector_calloc ok n h).1⟩) ∧
      (MatrixF64.new ok n1 n2 h).1 =
        (if (gsl_matrix_calloc ok n1 n2 h).1 = 0 then none
         else some ⟨(gsl_matrix_calloc ok n1 n2 h).1⟩) ∧
      (EigenSymmetricWorkspace.new (α := α) ok k h).1 =
        (if (gsl_eigen_symm_alloc (α := α) ok k h).1 = 0 then none
         else some ⟨(gsl_eigen_symm_alloc (α := α) ok k h).1⟩) := by
  intro α _ ok n n1 n2 k h
  exact ⟨vector_new_fst ok n h, matrix_new_fst ok n1 n2 h, ws_new_fst ok k h⟩

/-! ## Claim C2 -/

/-- C2 as stated is false: `VectorF64::add` (src/types.rs) is declared to
return the raw `i32` status code, not the typed `Value` enumeration. -/
theorem vector_add_raw_status_counterexample :
    ¬ retKind WrappedOp.vector_add = RetKind.typedValue := by
  decide

/-- C2 (amended): the eigen-workspace invocations return the typed
status enumeration, while the `VectorF64`/`MatrixF64` bulk operations
(copy_from, copy_to, swap, reverse, add, sub, mul, div, scale,
add_constant and the matrix analogues) return the raw `i32` status code
to the caller. -/
theorem retKind_eigen_typed_containers_raw :
    ∀ op : WrappedOp,
      retKind op =
        (if op.isEigen then RetKind.typedValue else RetKind.rawStatus) := by
  intro op
  cases op <;> rfl

/-! ## Claim C7 -/

/-- C7 as stated is false: `VectorF64::new(0)` invokes the native
allocator with the zero dimension — the wrapper does not validate the
dimension before the allocator call. -/
theorem new_zero_reaches_allocator_counterexample :
    Event.vCalloc 0 ∈ ((VectorF64.new (α := Int) true 0 Heap.empty).2).log := by
  decide

/-- C7 (amended): the constructors perform no dimension validation of
their own; every call passes the requested dimensions unchanged to the
native allocator (exactly one allocator call is made), and a zero
dimension is rejected by the native allocator itself — it returns NULL,
which the wrapper maps to `None`. -/
theorem new_forwards_dims_to_allocator :
    (∀ (α : Type) [Zero α] (ok : Bool) (n : Nat) (h : Heap α),
        ((VectorF64.new ok n h).2).log = h.log ++ [Event.vCalloc n]) ∧
    (∀ (α : Type) [Zero α] (ok : Bool) (h : Heap α),
        (VectorF64.new (α := α) ok 0 h).1 = none) ∧
    (∀ (α : Type) [Zero α] (ok : Bool) (n1 n2 : Nat) (h : Heap α),
        ((MatrixF64.new ok n1 n2 h).2).log = h.log ++ [Event.mCalloc n1 n2]) ∧
    (∀ (α : Type) [Zero α] (ok : Bool) (n2 : Nat) (h : Heap α),
        (MatrixF64.new (α := α) ok 0 n2 h).1 = none) ∧
    (∀ (α : Type) [Zero α] (ok : Bool) (n1 : Nat) (h : Heap α),
        (MatrixF64.new (α := α) ok n1 0 h).1 = none) := by
  refine ⟨?_, ?_, ?_, ?_, ?_⟩
  · intro α _ ok n h
    rw [vector_new_snd]
    unfold gsl_vector_calloc
    split <;> simp [Heap.logEv, Heap.alloc]
  · intro α _ ok h
    rw [vector_new_fst, vector_calloc_zero_or_fail ok 0 h (Or.inl rfl)]
    simp
  · intro α _ ok n1 n2 h
    rw [matrix_new_snd]
    unfold gsl_matrix_calloc
    split <;> simp [Heap.logEv, Heap.alloc]
  · intro α _ ok n2 h
    rw [matrix_new_fst, matrix_calloc_zero_or_fail ok 0 n2 h (Or.inl rfl)]
    simp
  · intro α _ ok n1 h
    rw [matrix_new_fst,
      matrix_calloc_zero_or_fail ok n1 0 h (Or.inr (Or.inl rfl))]
    simp

/-! ## Claim C3 -/

/-- C3: `set(i, v)` followed by `get(i)` on the same container returns
exactly `v`, for every valid index and every element value, for the
vector and matrix containers over every scalar type. -/
theorem set_get_roundtrip :
    (∀ (α : Type) [Zero α] (h : Heap α) (v : VectorF64) (d : List α)
        (i : Nat) (x : α),
        h.find v.vec = some (.vec d) → i < d.length →
        VectorF64.get v i (VectorF64.set v i x h) = x) ∧
    (∀ (α : Type) [Zero α] (h : Heap α) (m : MatrixF64) (n1 n2 : Nat)
        (rows : List (List α)) (y x : Nat) (val : α),
        h.find m.mat = some (.mat n1 n2 rows) → rows.length = n1 →
        (∀ r ∈ rows, r.length = n2) → y < n1 → x < n2 →
        MatrixF64.get m y x (MatrixF64.set m y x val h) = val) := by
  constructor
  · intro α _ h v d i x hf hi
    unfold VectorF64.get VectorF64.set gsl_vector_get gsl_vector_set
    rw [hf]
    simp only [hi, if_true]
    rw [Heap.find_update_self, hf]
    simp only [Option.map_some']
    rw [List.length_set]
    simp only [hi, if_true]
    exact getD_set_self d i x 0 hi
  · intro α _ h m n1 n2 rows y x val hf hrows hlen hy hx
    have hylen : y < rows.length := by rw [hrows]; exact hy
    have hrowy : (rows.getD y []).length = n2 :=
      hlen _ (getD_mem rows y [] hylen)
    have hxlen : x < (rows.getD y []).length := by rw [hrowy]; exact hx
    unfold MatrixF64.get MatrixF64.set gsl_matrix_get gsl_matrix_set
    rw [hf]
    simp only [hy, hx, and_true, if_true]
    rw [Heap.find_update_self, hf]
    simp only [Option.map_some']
    simp only [hy, hx, and_true, if_true]
    rw [getD_set_self rows y _ [] hylen]
    exact getD_set_self _ x val 0 hxlen

/-- Witness for C3 at a concrete heap: setting index 1 of the sample
vector to 7 then reading it back gives 7; setting entry (0, 1) of the
sample matrix to 9 then reading it back gives 9. -/
theorem set_get_roundtrip_witness :
    (sampleHeap.find sampleVec.vec = some (.vec [3, 4]) ∧ 1 < 2 ∧
     VectorF64.get sampleVec 1 (VectorF64.set sampleVec 1 7 sampleHeap) =
       (7 : Int)) ∧
    (sampleHeap.find sampleMat.mat = some (.mat 2 2 [[1, 2], [3, 4]]) ∧
     MatrixF64.get sampleMat 0 1 (MatrixF64.set sampleMat 0 1 9 sampleHeap) =
       (9 : Int)) :=
  ⟨⟨by decide, by decide,
    set_get_roundtrip.1 Int sampleHeap sampleVec [3, 4] 1 7 (by decide)
      (by decide)⟩,
   ⟨by decide,
    set_get_roundtrip.2 Int sampleHeap sampleMat 2 2 [[1, 2], [3, 4]] 0 1 9
      (by decide) (by decide) (by decide) (by decide) (by decide)⟩⟩

/-! ## Replicate helper lemmas -/

theorem getD_replicate_lt {γ : Type} (c d : γ) :
    ∀ (n i : Nat), i < n → (List.replicate n c).getD i d = c := by
  intro n
  induction n with
  | zero => intro i hi; omega
  | succ k ih =>
      intro i hi
      cases i with
      | zero => rfl
      | succ j =>
          rw [List.replicate_succ, List.getD_cons_succ]
          exact ih j (Nat.lt_of_succ_lt_succ hi)

theorem all_replicate_of_true {γ : Type} (p : γ → Bool) (c : γ) (n : Nat)
    (hp : p c = true) : (List.replicate n c).all p = true := by
  induction n with
  | zero => rfl
  | succ k ih => simp [List.replicate_succ, ih, hp]

/-! ## Reduction lemmas for native operations at a known block -/

theorem find_cons_self {α : Type} (nx : Nat) (p : Ptr) (b : Blk α)
    (rest : List (Ptr × Blk α)) (lg : List Event) :
    (⟨nx, (p, b) :: rest, lg⟩ : Heap α).find p = some b := by
  simp [Heap.find, assocFind]

theorem find_cons_ne {α : Type} (nx : Nat) (p q : Ptr) (b : Blk α)
    (rest : List (Ptr × Blk α)) (lg : List Event) (hq : p ≠ q) :
    (⟨nx, (p, b) :: rest, lg⟩ : Heap α).find q = assocFind rest q := by
  simp [Heap.find, assocFind, hq]

theorem gsl_vector_get_of_find {α : Type} [Zero α] {h : Heap α} {p : Ptr}
    {d : List α} (hf : h.find p = some (Blk.vec d)) (i : Nat) :
    gsl_vector_get h p i = if i < d.length then d.getD i 0 else 0 := by
  unfold gsl_vector_get
  rw [hf]

theorem gsl_vector_set_of_find {α : Type} {h : Heap α} {p : Ptr}
    {d : List α} (hf : h.find p = some (Blk.vec d)) (i : Nat) (x : α) :
    gsl_vector_set h p i x =
      if i < d.length then h.update p (.vec (d.set i x)) else h := by
  unfold gsl_vector_set
  rw [hf]

theorem gsl_vector_isnull_of_find {α : Type} [Zero α] [DecidableEq α]
    {h : Heap α} {p : Ptr} {d : List α}
    (hf : h.find p = some (Blk.vec d)) :
    gsl_vector_isnull h p =
      if d.all (fun x => decide (x = 0)) then 1 else 0 := by
  unfold gsl_vector_isnull
  rw [hf]

theorem gsl_vector_memcpy_of_find {α : Type} {h : Heap α} {dst src : Ptr}
    {dd sd : List α} (hf1 : h.find dst = some (Blk.vec dd))
    (hf2 : h.find src = some (Blk.vec sd)) :
    gsl_vector_memcpy h dst src =
      if dd.length = sd.length then (GSL_SUCCESS, h.update dst (.vec sd))
      else (GSL_EBADLEN, h) := by
  unfold gsl_vector_memcpy
  rw [hf1, hf2]

theorem gsl_matrix_get_of_find {α : Type} [Zero α] {h : Heap α} {p : Ptr}
    {n1 n2 : Nat} {rows : List (List α)}
    (hf : h.find p = some (Blk.mat n1 n2 rows)) (y x : Nat) :
    gsl_matrix_get h p y x =
      if y < n1 ∧ x < n2 then (rows.getD y []).getD x 0 else 0 := by
  unfold gsl_matrix_get
  rw [hf]

theorem gsl_matrix_isnull_of_find {α : Type} [Zero α] [DecidableEq α]
    {h : Heap α} {p : Ptr} {n1 n2 : Nat} {rows : List (List α)}
    (hf : h.find p = some (Blk.mat n1 n2 rows)) :
    gsl_matrix_isnull h p =
      if rows.all (fun r => r.all (fun v => decide (v = 0))) then 1
      else 0 := by
  unfold gsl_matrix_isnull
  rw [hf]

theorem gsl_matrix_memcpy_of_find {α : Type} {h : Heap α} {dst src : Ptr}
    {d1 d2 s1 s2 : Nat} {drows srows : List (List α)}
    (hf1 : h.find dst = some (Blk.mat d1 d2 drows))
    (hf2 : h.find src = some (Blk.mat s1 s2 srows)) :
    gsl_matrix_memcpy h dst src =
      if d1 = s1 ∧ d2 = s2 then
        (GSL_SUCCESS, h.update dst (.mat d1 d2 srows))
      else (GSL_EBADLEN, h) := by
  unfold gsl_matrix_memcpy
  rw [hf1, hf2]

theorem gsl_matrix_get_row_of_find {α : Type} {h : Heap α}
    {vp mp : Ptr} {n1 n2 : Nat} {rows : List (List α)} {d : List α}
    (hfm : h.find mp = some (Blk.mat n1 n2 rows))
    (hfv : h.find vp = some (Blk.vec d)) (y : Nat) :
    gsl_matrix_get_row h vp mp y =
      if y < n1 then
        if d.length = n2 then
          (GSL_SUCCESS, h.update vp (.vec (rows.getD y [])))
        else (GSL_EBADLEN, h)
      else (GSL_EINVAL, h) := by
  unfold gsl_matrix_get_row
  rw [hfm, hfv]

theorem gsl_matrix_get_col_of_find {α : Type} [Zero α] {h : Heap α}
    {vp mp : Ptr} {n1 n2 : Nat} {rows : List (List α)} {d : List α}
    (hfm : h.find mp = some (Blk.mat n1 n2 rows))
    (hfv : h.find vp = some (Blk.vec d)) (x : Nat) :
    gsl_matrix_get_col h vp mp x =
      if x < n2 then
        if d.length = n1 then
          (GSL_SUCCESS, h.update vp (.vec (rows.map (fun r => r.getD x 0))))
        else (GSL_EBADLEN, h)
      else (GSL_EINVAL, h) := by
  unfold gsl_matrix_get_col
  rw [hfm, hfv]

theorem matrix_size1_of_find {α : Type} {h : Heap α} {m : MatrixF64}
    {n1 n2 : Nat} {rows : List (List α)}
    (hf : h.find m.mat = some (Blk.mat n1 n2 rows)) :
    MatrixF64.size1 m h = n1 := by
  unfold MatrixF64.size1
  rw [hf]

theorem matrix_size2_of_find {α : Type} {h : Heap α} {m : MatrixF64}
    {n1 n2 : Nat} {rows : List (List α)}
    (hf : h.find m.mat = some (Blk.mat n1 n2 rows)) :
    MatrixF64.size2 m h = n2 := by
  unfold MatrixF64.size2
  rw [hf]

theorem assocUpdate_not_mem {β : Type} (l : List (Ptr × β)) (p : Ptr)
    (b : β) (hp : ∀ kv ∈ l, kv.1 ≠ p) : assocUpdate l p b = l := by
  induction l with
  | nil => rfl
  | cons kv t ih =>
      have hk : kv.1 ≠ p := hp kv (List.mem_cons_self kv t)
      simp only [assocUpdate, hk, if_false]
      rw [ih (fun kv hm => hp kv (List.mem_cons_of_mem _ hm))]

/-! ## Frame lemmas: a write at one pointer leaves other blocks alone -/

theorem gsl_vector_set_frame {α : Type} (h : Heap α) (p q : Ptr) (i : Nat)
    (x : α) (hpq : q ≠ p) :
    (gsl_vector_set h p i x).find q = h.find q := by
  cases hp : h.find p with
  | none =>
      unfold gsl_vector_set
      rw [hp]
  | some b =>
      cases b with
      | vec d =>
          rw [gsl_vector_set_of_find hp i x]
          by_cases hi : i < d.length
          · rw [if_pos hi]
            exact Heap.find_update_ne h p q _ hpq
          · rw [if_neg hi]
      | mat n1 n2 rows =>
          unfold gsl_vector_set
          rw [hp]
      | ws n =>
          unfold gsl_vector_set
          rw [hp]

theorem gsl_matrix_set_frame {α : Type} (h : Heap α) (p q : Ptr)
    (y x : Nat) (v : α) (hpq : q ≠ p) :
    (gsl_matrix_set h p y x v).find q = h.find q := by
  cases hp : h.find p with
  | none =>
      unfold gsl_matrix_set
      rw [hp]
  | some b =>
      cases b with
      | vec d =>
          unfold gsl_matrix_set
          rw [hp]
      | mat n1 n2 rows =>
          have hset : gsl_matrix_set h p y x v =
              if y < n1 ∧ x < n2 then
                h.update p (.mat n1 n2 (rows.set y ((rows.getD y []).set x v)))
              else h := by
            unfold gsl_matrix_set
            rw [hp]
          rw [hset]
          by_cases hb : y < n1 ∧ x < n2
          · rw [if_pos hb]
            exact Heap.find_update_ne h p q _ hpq
          · rw [if_neg hb]
      | ws n =>
          unfold gsl_matrix_set
          rw [hp]

theorem gsl_vector_get_congr {α : Type} [Zero α] {h1 h2 : Heap α}
    {p : Ptr} (he : h1.find p = h2.find p) (i : Nat) :
    gsl_vector_get h1 p i = gsl_vector_get h2 p i := by
  unfold gsl_vector_get
  rw [he]

theorem gsl_matrix_get_congr {α : Type} [Zero α] {h1 h2 : Heap α}
    {p : Ptr} (he : h1.find p = h2.find p) (y x : Nat) :
    gsl_matrix_get h1 p y x = gsl_matrix_get h2 p y x := by
  unfold gsl_matrix_get
  rw [he]

/-! ## Clone shape lemmas -/

theorem assocUpdate_cons_self {β : Type} (p : Ptr) (b c : β)
    (t : List (Ptr × β)) :
    assocUpdate ((p, b) :: t) p c = (p, c) :: assocUpdate t p c := by
  simp [assocUpdate]

theorem vector_clone_pos {α : Type} [Zero α] {h : Heap α} {v : VectorF64}
    {d : List α} (hw : h.WF) (hf : h.find v.vec = some (Blk.vec d))
    (hd : d.length ≠ 0) :
    VectorF64.clone true v h =
      (some ⟨h.next⟩,
       ⟨h.next + 1, (h.next, Blk.vec d) :: h.blocks,
        h.log ++ [Event.vCalloc d.length]⟩) := by
  have hv0 : v.vec ≠ 0 := (hw.find_bounds hf).1
  have hvlt : v.vec < h.next := (hw.find_bounds hf).2
  have hnext0 : h.next ≠ 0 := by
    have := hw.1
    omega
  have hnew : VectorF64.new true d.length h =
      (some ⟨h.next⟩,
       ⟨h.next + 1, (h.next, Blk.vec (List.replicate d.length 0)) :: h.blocks,
        h.log ++ [Event.vCalloc d.length]⟩) := by
    unfold VectorF64.new
    rw [vector_calloc_pos d.length h hd]
    simp [hnext0]
  have hfw : (⟨h.next + 1,
      (h.next, Blk.vec (List.replicate d.length 0)) :: h.blocks,
      h.log ++ [Event.vCalloc d.length]⟩ : Heap α).find h.next =
      some (Blk.vec (List.replicate d.length 0)) := find_cons_self _ _ _ _ _
  have hfv : (⟨h.next + 1,
      (h.next, Blk.vec (List.replicate d.length 0)) :: h.blocks,
      h.log ++ [Event.vCalloc d.length]⟩ : Heap α).find v.vec =
      some (Blk.vec d) := by
    have hne : h.next ≠ v.vec := ne_of_gt hvlt
    rw [find_cons_ne _ _ _ _ _ _ hne]
    exact hf
  have hcopy : VectorF64.copy_from (α := α) ⟨h.next⟩ v
      ⟨h.next + 1, (h.next, Blk.vec (List.replicate d.length 0)) :: h.blocks,
       h.log ++ [Event.vCalloc d.length]⟩ =
      (GSL_SUCCESS,
       ⟨h.next + 1, (h.next, Blk.vec d) :: h.blocks,
        h.log ++ [Event.vCalloc d.length]⟩) := by
    have hnotmem : ∀ kv ∈ h.blocks, kv.1 ≠ h.next := by
      intro kv hm
      obtain ⟨hb1, hb2⟩ := hw.2 kv hm
      exact ne_of_lt hb2
    unfold VectorF64.copy_from
    rw [gsl_vector_memcpy_of_find hfw hfv, if_pos (by simp)]
    unfold Heap.update
    rw [assocUpdate_cons_self, assocUpdate_not_mem h.blocks h.next _ hnotmem]
  unfold VectorF64.clone
  rw [if_neg hv0, hf]
  simp only [hnew, hcopy]

theorem vector_clone_alloc_fail {α : Type} [Zero α] {h : Heap α}
    {v : VectorF64} (hv0 : v.vec ≠ 0) :
    (VectorF64.clone false v h).1 = none := by
  have hnew : ∀ sz : Nat, (VectorF64.new (α := α) false sz h) =
      (none, h.logEv (.vCalloc sz)) := by
    intro sz
    unfold VectorF64.new
    rw [vector_calloc_zero_or_fail false sz h (Or.inr rfl)]
    simp
  unfold VectorF64.clone
  rw [if_neg hv0]
  simp only [hnew]

theorem matrix_clone_pos {α : Type} [Zero α] {h : Heap α} {m : MatrixF64}
    {n1 n2 : Nat} {rows : List (List α)} (hw : h.WF)
    (hf : h.find m.mat = some (Blk.mat n1 n2 rows)) (h1 : n1 ≠ 0)
    (h2 : n2 ≠ 0) :
    MatrixF64.clone true m h =
      (some ⟨h.next⟩,
       ⟨h.next + 1, (h.next, Blk.mat n1 n2 rows) :: h.blocks,
        h.log ++ [Event.mCalloc n1 n2]⟩) := by
  have hm0 : m.mat ≠ 0 := (hw.find_bounds hf).1
  have hmlt : m.mat < h.next := (hw.find_bounds hf).2
  have hnext0 : h.next ≠ 0 := by
    have := hw.1
    omega
  have hnew : MatrixF64.new true n1 n2 h =
      (some ⟨h.next⟩,
       ⟨h.next + 1,
        (h.next, Blk.mat n1 n2 (List.replicate n1 (List.replicate n2 0)))
          :: h.blocks,
        h.log ++ [Event.mCalloc n1 n2]⟩) := by
    unfold MatrixF64.new
    rw [matrix_calloc_pos n1 n2 h h1 h2]
    simp [hnext0]
  have hfw : (⟨h.next + 1,
      (h.next, Blk.mat n1 n2 (List.replicate n1 (List.replicate n2 0)))
        :: h.blocks,
      h.log ++ [Event.mCalloc n1 n2]⟩ : Heap α).find h.next =
      some (Blk.mat n1 n2 (List.replicate n1 (List.replicate n2 0))) :=
    find_cons_self _ _ _ _ _
  have hfm : (⟨h.next + 1,
      (h.next, Blk.mat n1 n2 (List.replicate n1 (List.replicate n2 0)))
        :: h.blocks,
      h.log ++ [Event.mCalloc n1 n2]⟩ : Heap α).find m.mat =
      some (Blk.mat n1 n2 rows) := by
    have hne : h.next ≠ m.mat := ne_of_gt hmlt
    rw [find_cons_ne _ _ _ _ _ _ hne]
    exact hf
  have hcopy : MatrixF64.copy_from (α := α) ⟨h.next⟩ m
      ⟨h.next + 1,
       (h.next, Blk.mat n1 n2 (List.replicate n1 (List.replicate n2 0)))
         :: h.blocks,
       h.log ++ [Event.mCalloc n1 n2]⟩ =
      (GSL_SUCCESS,
       ⟨h.next + 1, (h.next, Blk.mat n1 n2 rows) :: h.blocks,
        h.log ++ [Event.mCalloc n1 n2]⟩) := by
    have hnotmem : ∀ kv ∈ h.blocks, kv.1 ≠ h.next := by
      intro kv hm
      obtain ⟨hb1, hb2⟩ := hw.2 kv hm
      exact ne_of_lt hb2
    unfold MatrixF64.copy_from
    rw [gsl_matrix_memcpy_of_find hfw hfm, if_pos (And.intro rfl rfl)]
    unfold Heap.update
    rw [assocUpdate_cons_self, assocUpdate_not_mem h.blocks h.next _ hnotmem]
  unfold MatrixF64.clone
  rw [if_neg hm0, matrix_size1_of_find hf, matrix_size2_of_find hf]
  simp only [hnew, hcopy]

theorem matrix_clone_alloc_fail {α : Type} [Zero α] {h : Heap α}
    {m : MatrixF64} (hm0 : m.mat ≠ 0) :
    (MatrixF64.clone false m h).1 = none := by
  have hnew : ∀ s1 s2 : Nat, (MatrixF64.new (α := α) false s1 s2 h) =
      (none, h.logEv (.mCalloc s1 s2)) := by
    intro s1 s2
    unfold MatrixF64.new
    rw [matrix_calloc_zero_or_fail false s1 s2 h (Or.inr (Or.inr rfl))]
    simp
  unfold MatrixF64.clone
  rw [if_neg hm0]
  simp only [hnew]

/-! ## Claim C6 -/

/-- C6: dropping a handle calls the matching native free exactly once —
on the owned pointer — and returns the handle with its internal pointer
cleared to NULL, so a further drop through the handle can only free the
NULL pointer, never release the original allocation a second time.
Stated for `VectorF64`, `MatrixF64` and `EigenSymmetricWorkspace`. -/
theorem drop_frees_once_then_nulls :
    ∀ (α : Type) (h h2 : Heap α) (v : VectorF64) (m : MatrixF64)
      (w : EigenSymmetricWorkspace),
      v.vec ≠ 0 → m.mat ≠ 0 → w.ptr ≠ 0 →
      ((VectorF64.drop v h).1.vec = 0 ∧
       ((VectorF64.drop v h).2).log = h.log ++ [Event.vFree v.vec] ∧
       ((VectorF64.drop v h).2).blocks = assocErase h.blocks v.vec ∧
       ((VectorF64.drop (VectorF64.drop v h).1 h2).2).log =
         h2.log ++ [Event.vFree 0] ∧
       Event.vFree 0 ≠ Event.vFree v.vec) ∧
      ((MatrixF64.drop m h).1.mat = 0 ∧
       ((MatrixF64.drop m h).2).log = h.log ++ [Event.mFree m.mat] ∧
       ((MatrixF64.drop m h).2).blocks = assocErase h.blocks m.mat ∧
       ((MatrixF64.drop (MatrixF64.drop m h).1 h2).2).log =
         h2.log ++ [Event.mFree 0] ∧
       Event.mFree 0 ≠ Event.mFree m.mat) ∧
      ((EigenSymmetricWorkspace.drop w h).1.ptr = 0 ∧
       ((EigenSymmetricWorkspace.drop w h).2).log =
         h.log ++ [Event.wsFree w.ptr] ∧
       ((EigenSymmetricWorkspace.drop w h).2).blocks =
         assocErase h.blocks w.ptr ∧
       ((EigenSymmetricWorkspace.drop
           (EigenSymmetricWorkspace.drop w h).1 h2).2).log =
         h2.log ++ [Event.wsFree 0] ∧
       Event.wsFree 0 ≠ Event.wsFree w.ptr) := by
  intro α h h2 v m w hv hm hw
  refine ⟨⟨rfl, rfl, rfl, rfl, ?_⟩, ⟨rfl, rfl, rfl, rfl, ?_⟩,
    ⟨rfl, rfl, rfl, rfl, ?_⟩⟩
  · simpa using fun h0 => hv h0.symm
  · simpa using fun h0 => hm h0.symm
  · simpa using fun h0 => hw h0.symm

/-- Witness for C6 at the sample heap: dropping the sample vector,
matrix and a workspace handle at pointer 5. -/
theorem drop_frees_once_then_nulls_witness :
    (sampleVec.vec ≠ 0 ∧ sampleMat.mat ≠ 0 ∧
      (EigenSymmetricWorkspace.mk 5).ptr ≠ 0) ∧
    ((VectorF64.drop sampleVec sampleHeap).1.vec = 0 ∧
     ((VectorF64.drop sampleVec sampleHeap).2).log =
       sampleHeap.log ++ [Event.vFree sampleVec.vec]) :=
  ⟨⟨by decide, by decide, by decide⟩,
   ⟨((drop_frees_once_then_nulls Int sampleHeap sampleHeap sampleVec
        sampleMat ⟨5⟩ (by decide) (by decide) (by decide)).1).1,
    (((drop_frees_once_then_nulls Int sampleHeap sampleHeap sampleVec
        sampleMat ⟨5⟩ (by decide) (by decide) (by decide)).1).2).1⟩⟩

/-! ## Claim C10 -/

/-- C10: a vector or matrix successfully returned by `new` is fully
zeroed (the constructor uses the zeroing `calloc` allocator): `get`
returns 0 at every valid index and `is_null()` is `true` immediately
after construction. -/
theorem new_returns_zeroed_container :
    (∀ (α : Type) [Zero α] [DecidableEq α] (ok : Bool) (n : Nat)
        (h : Heap α) (v : VectorF64) (i : Nat),
        (VectorF64.new ok n h).1 = some v → i < n →
        VectorF64.get v i (VectorF64.new ok n h).2 = 0 ∧
        VectorF64.is_null v (VectorF64.new ok n h).2 = true) ∧
    (∀ (α : Type) [Zero α] [DecidableEq α] (ok : Bool) (n1 n2 : Nat)
        (h : Heap α) (m : MatrixF64) (y x : Nat),
        (MatrixF64.new ok n1 n2 h).1 = some m → y < n1 → x < n2 →
        MatrixF64.get m y x (MatrixF64.new ok n1 n2 h).2 = 0 ∧
        MatrixF64.is_null m (MatrixF64.new ok n1 n2 h).2 = true) := by
  constructor
  · intro α _ _ ok n h v i hsome hi
    have hok : ¬ (n = 0 ∨ ok = false) := by
      intro hfail
      rw [vector_new_fst, vector_calloc_zero_or_fail ok n h hfail] at hsome
      simp at hsome
    have hn : n ≠ 0 := fun h0 => hok (Or.inl h0)
    have hoktrue : ok = true := by
      cases ok
      · exact absurd (Or.inr rfl) hok
      · rfl
    subst hoktrue
    rw [vector_new_fst, vector_calloc_pos n h hn] at hsome
    have hnext : h.next ≠ 0 := by
      intro h0
      rw [h0] at hsome
      simp at hsome
    simp only [hnext, if_false] at hsome
    have hv : v = ⟨h.next⟩ := by
      cases hsome
      rfl
    subst hv
    rw [vector_new_snd, vector_calloc_pos n h hn]
    have hfind :
        (⟨h.next + 1, (h.next, Blk.vec (List.replicate n 0)) :: h.blocks,
          h.log ++ [Event.vCalloc n]⟩ : Heap α).find h.next =
          some (Blk.vec (List.replicate n 0)) :=
      find_cons_self _ _ _ _ _
    constructor
    · unfold VectorF64.get
      rw [gsl_vector_get_of_find hfind i]
      rw [if_pos (by simpa using hi)]
      exact getD_replicate_lt 0 0 n i hi
    · unfold VectorF64.is_null
      rw [gsl_vector_isnull_of_find hfind]
      have hall :
          (List.replicate n (0 : α)).all (fun x => decide (x = 0)) = true :=
        all_replicate_of_true _ _ _ (by simp)
      rw [if_pos hall]
      rfl
  · intro α _ _ ok n1 n2 h m y x hsome hy hx
    have hok : ¬ (n1 = 0 ∨ n2 = 0 ∨ ok = false) := by
      intro hfail
      rw [matrix_new_fst, matrix_calloc_zero_or_fail ok n1 n2 h hfail]
        at hsome
      simp at hsome
    have h1 : n1 ≠ 0 := fun h0 => hok (Or.inl h0)
    have h2 : n2 ≠ 0 := fun h0 => hok (Or.inr (Or.inl h0))
    have hoktrue : ok = true := by
      cases ok
      · exact absurd (Or.inr (Or.inr rfl)) hok
      · rfl
    subst hoktrue
    rw [matrix_new_fst, matrix_calloc_pos n1 n2 h h1 h2] at hsome
    have hnext : h.next ≠ 0 := by
      intro h0
      rw [h0] at hsome
      simp at hsome
    simp only [hnext, if_false] at hsome
    have hm : m = ⟨h.next⟩ := by
      cases hsome
      rfl
    subst hm
    rw [matrix_new_snd, matrix_calloc_pos n1 n2 h h1 h2]
    have hfind :
        (⟨h.next + 1,
          (h.next, Blk.mat n1 n2 (List.replicate n1 (List.replicate n2 0)))
            :: h.blocks,
          h.log ++ [Event.mCalloc n1 n2]⟩ : Heap α).find h.next =
          some (Blk.mat n1 n2 (List.replicate n1 (List.replicate n2 0))) :=
      find_cons_self _ _ _ _ _
    constructor
    · unfold MatrixF64.get
      rw [gsl_matrix_get_of_find hfind y x]
      rw [if_pos (And.intro hy hx)]
      rw [getD_replicate_lt _ _ n1 y hy]
      exact getD_replicate_lt 0 0 n2 x hx
    · unfold MatrixF64.is_null
      rw [gsl_matrix_isnull_of_find hfind]
      have hall :
          (List.replicate n1 (List.replicate n2 (0 : α))).all
            (fun r => r.all (fun v => decide (v = 0))) = true :=
        all_replicate_of_true _ _ _ (all_replicate_of_true _ _ _ (by simp))
      rw [if_pos hall]
      rfl

/-- Witness for C10: allocating a 2-element vector and a 2 × 2 matrix on
the empty heap over ℤ yields handles whose elements read back 0 and whose
`is_null` is true. -/
theorem new_returns_zeroed_container_witness :
    ((VectorF64.new (α := Int) true 2 Heap.empty).1 = some ⟨1⟩ ∧ 1 < 2 ∧
     VectorF64.get (α := Int) ⟨1⟩ 1 (VectorF64.new (α := Int) true 2
       Heap.empty).2 = 0 ∧
     VectorF64.is_null (α := Int) ⟨1⟩
       (VectorF64.new (α := Int) true 2 Heap.empty).2 = true) ∧
    ((MatrixF64.new (α := Int) true 2 3 Heap.empty).1 = some ⟨1⟩ ∧
     MatrixF64.get (α := Int) ⟨1⟩ 1 2 (MatrixF64.new (α := Int) true 2 3
       Heap.empty).2 = 0 ∧
     MatrixF64.is_null (α := Int) ⟨1⟩
       (MatrixF64.new (α := Int) true 2 3 Heap.empty).2 = true) :=
  ⟨⟨by decide, by decide,
    (new_returns_zeroed_container.1 Int true 2 Heap.empty ⟨1⟩ 1 (by decide)
      (by decide)).1,
    (new_returns_zeroed_container.1 Int true 2 Heap.empty ⟨1⟩ 1 (by decide)
      (by decide)).2⟩,
   ⟨by decide,
    (new_returns_zeroed_container.2 Int true 2 3 Heap.empty ⟨1⟩ 1 2
      (by decide) (by decide) (by decide)).1,
    (new_returns_zeroed_container.2 Int true 2 3 Heap.empty ⟨1⟩ 1 2
      (by decide) (by decide) (by decide)).2⟩⟩

/-! ## Claim C4 -/

/-- C4: a successful clone is a deep copy made through the native copy
function, never a pointer copy: the clone owns a pointer different from
the source handle's, and mutating any element of the clone leaves every
element of the original unchanged, and vice versa.  Stated for
`VectorF64` and `MatrixF64`. -/
theorem clone_deep_copy_isolation :
    (∀ (α : Type) [Zero α] (h : Heap α) (v : VectorF64) (d : List α),
        h.WF → h.find v.vec = some (.vec d) → d.length ≠ 0 →
        ∃ w h1, VectorF64.clone true v h = (some w, h1) ∧ w.vec ≠ v.vec ∧
          ∀ i x j,
            VectorF64.get v j (VectorF64.set w i x h1) =
              VectorF64.get v j h1 ∧
            VectorF64.get w j (VectorF64.set v i x h1) =
              VectorF64.get w j h1) ∧
    (∀ (α : Type) [Zero α] (h : Heap α) (m : MatrixF64) (n1 n2 : Nat)
        (rows : List (List α)),
        h.WF → h.find m.mat = some (.mat n1 n2 rows) → n1 ≠ 0 → n2 ≠ 0 →
        ∃ w h1, MatrixF64.clone true m h = (some w, h1) ∧ w.mat ≠ m.mat ∧
          ∀ y x val j k,
            MatrixF64.get m j k (MatrixF64.set w y x val h1) =
              MatrixF64.get m j k h1 ∧
            MatrixF64.get w j k (MatrixF64.set m y x val h1) =
              MatrixF64.get w j k h1) := by
  constructor
  · intro α _ h v d hw hf hd
    have hlt : v.vec < h.next := (hw.find_bounds hf).2
    refine ⟨⟨h.next⟩, _, vector_clone_pos hw hf hd, ne_of_gt hlt, ?_⟩
    intro i x j
    have hvw : v.vec ≠ h.next := ne_of_lt hlt
    constructor
    · unfold VectorF64.get VectorF64.set
      exact gsl_vector_get_congr (gsl_vector_set_frame _ _ _ i x hvw) j
    · unfold VectorF64.get VectorF64.set
      exact gsl_vector_get_congr
        (gsl_vector_set_frame _ _ _ i x (Ne.symm hvw)) j
  · intro α _ h m n1 n2 rows hw hf h1 h2
    have hlt : m.mat < h.next := (hw.find_bounds hf).2
    refine ⟨⟨h.next⟩, _, matrix_clone_pos hw hf h1 h2, ne_of_gt hlt, ?_⟩
    intro y x val j k
    have hmw : m.mat ≠ h.next := ne_of_lt hlt
    constructor
    · unfold MatrixF64.get MatrixF64.set
      exact gsl_matrix_get_congr (gsl_matrix_set_frame _ _ _ y x val hmw) j k
    · unfold MatrixF64.get MatrixF64.set
      exact gsl_matrix_get_congr
        (gsl_matrix_set_frame _ _ _ y x val (Ne.symm hmw)) j k

/-- Witness for C4 on the sample heap: cloning the 2-element sample
vector succeeds, yields a distinct pointer, and mutations do not cross
between clone and original. -/
theorem clone_deep_copy_isolation_witness :
    (sampleHeap.WF ∧
     sampleHeap.find sampleVec.vec = some (.vec [3, 4]) ∧
     ([3, 4] : List Int).length ≠ 0) ∧
    (∃ w h1, VectorF64.clone true sampleVec sampleHeap = (some w, h1) ∧
       w.vec ≠ sampleVec.vec ∧
       ∀ i x j,
         VectorF64.get sampleVec j (VectorF64.set w i x h1) =
           VectorF64.get sampleVec j h1 ∧
         VectorF64.get w j (VectorF64.set sampleVec i x h1) =
           VectorF64.get w j h1) :=
  ⟨⟨by decide, by decide, by decide⟩,
   clone_deep_copy_isolation.1 Int sampleHeap sampleVec [3, 4] (by decide)
     (by decide) (by decide)⟩

/-! ## Claim C5 -/

/-- C5: clone allocates a new handle of identical dimensions and copies
all elements — the produced block is exactly the source's block, never a
partial copy — and when the allocation fails the clone returns `None`.
Stated for `VectorF64` and `MatrixF64`. -/
theorem clone_identical_dims_or_none :
    (∀ (α : Type) [Zero α] (h : Heap α) (v : VectorF64) (d : List α),
        h.WF → h.find v.vec = some (.vec d) →
        (VectorF64.clone false v h).1 = none ∧
        (d.length ≠ 0 →
          ∃ w h1, VectorF64.clone true v h = (some w, h1) ∧
            h1.find w.vec = some (Blk.vec d))) ∧
    (∀ (α : Type) [Zero α] (h : Heap α) (m : MatrixF64) (n1 n2 : Nat)
        (rows : List (List α)),
        h.WF → h.find m.mat = some (.mat n1 n2 rows) →
        (MatrixF64.clone false m h).1 = none ∧
        (n1 ≠ 0 → n2 ≠ 0 →
          ∃ w h1, MatrixF64.clone true m h = (some w, h1) ∧
            h1.find w.mat = some (Blk.mat n1 n2 rows))) := by
  constructor
  · intro α _ h v d hw hf
    refine ⟨vector_clone_alloc_fail (hw.find_bounds hf).1, ?_⟩
    intro hd
    exact ⟨⟨h.next⟩, _, vector_clone_pos hw hf hd, find_cons_self _ _ _ _ _⟩
  · intro α _ h m n1 n2 rows hw hf
    refine ⟨matrix_clone_alloc_fail (hw.find_bounds hf).1, ?_⟩
    intro h1 h2
    exact ⟨⟨h.next⟩, _, matrix_clone_pos hw hf h1 h2,
      find_cons_self _ _ _ _ _⟩

/-- Witness for C5 on the sample heap: cloning the 2 × 2 sample matrix
fails to `None` under allocation failure, and succeeds with an identical
block under allocation success. -/
theorem clone_identical_dims_or_none_witness :
    (sampleHeap.WF ∧
     sampleHeap.find sampleMat.mat = some (.mat 2 2 [[1, 2], [3, 4]]) ∧
     (2 : Nat) ≠ 0) ∧
    ((MatrixF64.clone false sampleMat sampleHeap).1 = none ∧
     ((2 : Nat) ≠ 0 → (2 : Nat) ≠ 0 →
       ∃ w h1, MatrixF64.clone true sampleMat sampleHeap = (some w, h1) ∧
         h1.find w.mat = some (Blk.mat 2 2 [[1, 2], [3, 4]]))) :=
  ⟨⟨by decide, by decide, by decide⟩,
   clone_identical_dims_or_none.2 Int sampleHeap sampleMat 2 2
     [[1, 2], [3, 4]] (by decide) (by decide)⟩

/-! ## Claim C8 -/

/-- C8: `get_row(y)` allocates and returns a new vector whose length is
the matrix's column count (the length of a row) and `get_col(x)` one
whose length is the row count; when the vector allocation fails the
operation returns `None`. -/
theorem get_row_col_sized_or_none :
    ∀ (α : Type) [Zero α] (h : Heap α) (m : MatrixF64) (n1 n2 : Nat)
      (rows : List (List α)) (junk : α) (y x : Nat),
      h.WF → h.find m.mat = some (.mat n1 n2 rows) → rows.length = n1 →
      (∀ r ∈ rows, r.length = n2) →
      ((MatrixF64.get_row false junk m y h).1 = none ∧
       (n2 ≠ 0 → ∃ w ret h1,
          MatrixF64.get_row true junk m y h = (some (w, ret), h1) ∧
          VectorF64.len w h1 = n2) ∧
       (MatrixF64.get_col false junk m x h).1 = none ∧
       (n1 ≠ 0 → ∃ w ret h1,
          MatrixF64.get_col true junk m x h = (some (w, ret), h1) ∧
          VectorF64.len w h1 = n1)) := by
  intro α _ h m n1 n2 rows junk y x hw hf hrl hrn
  have hm0 : m.mat ≠ 0 := (hw.find_bounds hf).1
  have hmlt : m.mat < h.next := (hw.find_bounds hf).2
  have hnext0 : h.next ≠ 0 := by
    have := hw.1
    omega
  refine ⟨?_, ?_, ?_, ?_⟩
  · unfold MatrixF64.get_row
    rw [vector_alloc_zero_or_fail false junk _ h (Or.inr rfl)]
    rfl
  · intro hn2
    unfold MatrixF64.get_row
    rw [matrix_size2_of_find hf, vector_alloc_pos junk n2 h hn2]
    have hfm : (⟨h.next + 1,
        (h.next, Blk.vec (List.replicate n2 junk)) :: h.blocks,
        h.log ++ [Event.vAlloc n2]⟩ : Heap α).find m.mat =
        some (Blk.mat n1 n2 rows) := by
      rw [find_cons_ne _ _ _ _ _ _ (ne_of_gt hmlt)]
      exact hf
    have hfw : (⟨h.next + 1,
        (h.next, Blk.vec (List.replicate n2 junk)) :: h.blocks,
        h.log ++ [Event.vAlloc n2]⟩ : Heap α).find h.next =
        some (Blk.vec (List.replicate n2 junk)) := find_cons_self _ _ _ _ _
    by_cases hy : y < n1
    · have hcall : gsl_matrix_get_row
          (⟨h.next + 1,
            (h.next, Blk.vec (List.replicate n2 junk)) :: h.blocks,
            h.log ++ [Event.vAlloc n2]⟩ : Heap α) h.next m.mat y =
          (GSL_SUCCESS,
           Heap.update
             (⟨h.next + 1,
               (h.next, Blk.vec (List.replicate n2 junk)) :: h.blocks,
               h.log ++ [Event.vAlloc n2]⟩ : Heap α) h.next
             (Blk.vec (rows.getD y []))) := by
        rw [gsl_matrix_get_row_of_find hfm hfw y]
        rw [if_pos hy, if_pos (by simp)]
      refine ⟨⟨h.next⟩, GSL_SUCCESS,
        Heap.update
          (⟨h.next + 1,
            (h.next, Blk.vec (List.replicate n2 junk)) :: h.blocks,
            h.log ++ [Event.vAlloc n2]⟩ : Heap α) h.next
          (Blk.vec (rows.getD y [])), ?_, ?_⟩
      · simp only [hnext0, if_false, hcall]
      · unfold VectorF64.len
        rw [if_neg hnext0, Heap.find_update_self, hfw]
        simp only [Option.map_some']
        exact hrn _ (getD_mem rows y [] (by rw [hrl]; exact hy))
    · have hcall : gsl_matrix_get_row
          (⟨h.next + 1,
            (h.next, Blk.vec (List.replicate n2 junk)) :: h.blocks,
            h.log ++ [Event.vAlloc n2]⟩ : Heap α) h.next m.mat y =
          (GSL_EINVAL,
           ⟨h.next + 1,
            (h.next, Blk.vec (List.replicate n2 junk)) :: h.blocks,
            h.log ++ [Event.vAlloc n2]⟩) := by
        rw [gsl_matrix_get_row_of_find hfm hfw y]
        rw [if_neg hy]
      refine ⟨⟨h.next⟩, GSL_EINVAL,
        ⟨h.next + 1, (h.next, Blk.vec (List.replicate n2 junk)) :: h.blocks,
         h.log ++ [Event.vAlloc n2]⟩, ?_, ?_⟩
      · simp only [hnext0, if_false, hcall]
      · unfold VectorF64.len
        rw [if_neg hnext0, hfw]
        simp
  · unfold MatrixF64.get_col
    rw [vector_alloc_zero_or_fail false junk _ h (Or.inr rfl)]
    rfl
  · intro hn1
    unfold MatrixF64.get_col
    rw [matrix_size1_of_find hf, vector_alloc_pos junk n1 h hn1]
    have hfm : (⟨h.next + 1,
        (h.next, Blk.vec (List.replicate n1 junk)) :: h.blocks,
        h.log ++ [Event.vAlloc n1]⟩ : Heap α).find m.mat =
        some (Blk.mat n1 n2 rows) := by
      rw [find_cons_ne _ _ _ _ _ _ (ne_of_gt hmlt)]
      exact hf
    have hfw : (⟨h.next + 1,
        (h.next, Blk.vec (List.replicate n1 junk)) :: h.blocks,
        h.log ++ [Event.vAlloc n1]⟩ : Heap α).find h.next =
        some (Blk.vec (List.replicate n1 junk)) := find_cons_self _ _ _ _ _
    by_cases hx : x < n2
    · have hcall : gsl_matrix_get_col
          (⟨h.next + 1,
            (h.next, Blk.vec (List.replicate n1 junk)) :: h.blocks,
            h.log ++ [Event.vAlloc n1]⟩ : Heap α) h.next m.mat x =
          (GSL_SUCCESS,
           Heap.update
             (⟨h.next + 1,
               (h.next, Blk.vec (List.replicate n1 junk)) :: h.blocks,
               h.log ++ [Event.vAlloc n1]⟩ : Heap α) h.next
             (Blk.vec (rows.map (fun r => r.getD x 0)))) := by
        rw [gsl_matrix_get_col_of_find hfm hfw x]
        rw [if_pos hx, if_pos (by simp [hrl])]
      refine ⟨⟨h.next⟩, GSL_SUCCESS,
        Heap.update
          (⟨h.next + 1,
            (h.next, Blk.vec (List.replicate n1 junk)) :: h.blocks,
            h.log ++ [Event.vAlloc n1]⟩ : Heap α) h.next
          (Blk.vec (rows.map (fun r => r.getD x 0))), ?_, ?_⟩
      · simp only [hnext0, if_false, hcall]
      · unfold VectorF64.len
        rw [if_neg hnext0, Heap.find_update_self, hfw]
        simp only [Option.map_some']
        simp [hrl]
    · have hcall : gsl_matrix_get_col
          (⟨h.next + 1,
            (h.next, Blk.vec (List.replicate n1 junk)) :: h.blocks,
            h.log ++ [Event.vAlloc n1]⟩ : Heap α) h.next m.mat x =
          (GSL_EINVAL,
           ⟨h.next + 1,
            (h.next, Blk.vec (List.replicate n1 junk)) :: h.blocks,
            h.log ++ [Event.vAlloc n1]⟩) := by
        rw [gsl_matrix_get_col_of_find hfm hfw x]
        rw [if_neg hx]
      refine ⟨⟨h.next⟩, GSL_EINVAL,
        ⟨h.next + 1, (h.next, Blk.vec (List.replicate n1 junk)) :: h.blocks,
         h.log ++ [Event.vAlloc n1]⟩, ?_, ?_⟩
      · simp only [hnext0, if_false, hcall]
      · unfold VectorF64.len
        rw [if_neg hnext0, hfw]
        simp

/-- Witness for C8 on the sample heap: extracting row 0 and column 1 of
the 2 × 2 sample matrix. -/
theorem get_row_col_sized_or_none_witness :
    (sampleHeap.WF ∧
     sampleHeap.find sampleMat.mat = some (.mat 2 2 [[1, 2], [3, 4]]) ∧
     ([[1, 2], [3, 4]] : List (List Int)).length = 2 ∧
     (∀ r ∈ ([[1, 2], [3, 4]] : List (List Int)), r.length = 2)) ∧
    ((MatrixF64.get_row false (0 : Int) sampleMat 0 sampleHeap).1 = none ∧
     ((2 : Nat) ≠ 0 → ∃ w ret h1,
        MatrixF64.get_row true (0 : Int) sampleMat 0 sampleHeap =
          (some (w, ret), h1) ∧
        VectorF64.len w h1 = 2) ∧
     (MatrixF64.get_col false (0 : Int) sampleMat 1 sampleHeap).1 = none ∧
     ((2 : Nat) ≠ 0 → ∃ w ret h1,
        MatrixF64.get_col true (0 : Int) sampleMat 1 sampleHeap =
          (some (w, ret), h1) ∧
        VectorF64.len w h1 = 2)) :=
  ⟨⟨by decide, by decide, by decide, by decide⟩,
   get_row_col_sized_or_none Int sampleHeap sampleMat 2 2 [[1, 2], [3, 4]]
     0 0 1 (by decide) (by decide) (by decide) (by decide)⟩

/-! ## Claim C9 -/

theorem testM_entry00 : testM.get 0 0 testH7 = (5 : ℚ) := by decide

theorem testM_entry10 : testM.get 1 0 testH7 = (1 : ℚ) := by decide

theorem testM_entry11 : testM.get 1 1 testH7 = (6 : ℚ) := by decide

/-- C9: running the repository's eigen test scenario — the 2 × 2 matrix
with rows `[5, 5]`, `[1, 6]` built through the embedded wrapper calls —
through the symmetric-eigenvalue contract (which reads the diagonal and
lower triangle) produces two eigenvalues which, formatted to 4 decimal
places, read `4.3820` and `6.6180`, in either order. -/
theorem symm_eigen_test_formats :
    ∀ l1 l2 : ℝ,
      SymmEigenvalues2 ((testM.get 0 0 testH7 : ℚ) : ℝ)
        ((testM.get 1 0 testH7 : ℚ) : ℝ)
        ((testM.get 1 1 testH7 : ℚ) : ℝ) l1 l2 →
      (Formats4dp l1 43820 ∧ Formats4dp l2 66180) ∨
      (Formats4dp l1 66180 ∧ Formats4dp l2 43820) := by
  intro l1 l2 hev
  rw [testM_entry00, testM_entry10, testM_entry11] at hev
  obtain ⟨hsum, hprod⟩ := hev
  have hsum' : l1 + l2 = 11 := by
    push_cast at hsum
    linarith
  have hprod' : l1 * l2 = 29 := by
    push_cast at hprod
    linarith
  have hq : l1 * l1 - 11 * l1 + 29 = 0 := by
    have hl2 : l2 = 11 - l1 := by linarith
    rw [hl2] at hprod'
    nlinarith [hprod']
  unfold Formats4dp
  by_cases hc : l1 ≤ 11 / 2
  · left
    have hlo : (4.38195 : ℝ) < l1 := by
      nlinarith [hq, hc, sq_nonneg (l1 - 4.382)]
    have hhi : l1 < (4.38205 : ℝ) := by
      nlinarith [hq, hc, sq_nonneg (l1 - 4.382)]
    constructor
    · rw [abs_lt]
      constructor <;> [nlinarith [hlo]; nlinarith [hhi]]
    · rw [abs_lt]
      have hl2 : l2 = 11 - l1 := by linarith
      constructor <;> [nlinarith [hhi, hl2]; nlinarith [hlo, hl2]]
  · right
    have hc' : (11 / 2 : ℝ) < l1 := by linarith
    have hlo : (6.61795 : ℝ) < l1 := by
      nlinarith [hq, hc', sq_nonneg (l1 - 6.618)]
    have hhi : l1 < (6.61805 : ℝ) := by
      nlinarith [hq, hc', sq_nonneg (l1 - 6.618)]
    constructor
    · rw [abs_lt]
      constructor <;> [nlinarith [hlo]; nlinarith [hhi]]
    · rw [abs_lt]
      have hl2 : l2 = 11 - l1 := by linarith
      constructor <;> [nlinarith [hhi, hl2]; nlinarith [hlo, hl2]]

/-- Witness for C9: the explicit pair `(11 − √5)/2`, `(11 + √5)/2`
satisfies the eigenvalue contract for the test matrix and rounds to the
claimed 4-decimal strings. -/
theorem symm_eigen_test_formats_witness :
    SymmEigenvalues2 ((testM.get 0 0 testH7 : ℚ) : ℝ)
      ((testM.get 1 0 testH7 : ℚ) : ℝ) ((testM.get 1 1 testH7 : ℚ) : ℝ)
      ((11 - Real.sqrt 5) / 2) ((11 + Real.sqrt 5) / 2) ∧
    ((Formats4dp ((11 - Real.sqrt 5) / 2) 43820 ∧
      Formats4dp ((11 + Real.sqrt 5) / 2) 66180) ∨
     (Formats4dp ((11 - Real.sqrt 5) / 2) 66180 ∧
      Formats4dp ((11 + Real.sqrt 5) / 2) 43820)) := by
  have h5 : Real.sqrt 5 * Real.sqrt 5 = 5 :=
    Real.mul_self_sqrt (by norm_num)
  have hev : SymmEigenvalues2 ((testM.get 0 0 testH7 : ℚ) : ℝ)
      ((testM.get 1 0 testH7 : ℚ) : ℝ) ((testM.get 1 1 testH7 : ℚ) : ℝ)
      ((11 - Real.sqrt 5) / 2) ((11 + Real.sqrt 5) / 2) := by
    rw [testM_entry00, testM_entry10, testM_entry11]
    constructor
    · push_cast
      ring
    · push_cast
      nlinarith [h5]
  exact ⟨hev, symm_eigen_test_formats _ _ hev⟩

end Gsl
